import Mathlib

/-!
Shallow embedding of `rlxnix/trace_container.py` (the `TraceContainer`
time-slicing core) together with the backing-store operations it calls.

Conventions:
* Times, durations and sample values (Python floats / numpy arrays) are
  modelled as rationals (`ℚ`); arrays are Lean lists.
* The backing recording-file store (the external `nixio` library) is not part
  of this repository; its operations (`get_slice`, `dimensions[0].axis`,
  reference/feature lookup, position/extent access) are modelled from the
  spec's backing-store contract: a trace is either continuous (uniformly
  sampled: sample `i` lives at absolute time `t0 + i * dt`) or event-like
  (its stored values are absolute timestamps), and the slicing operation
  returns the data bounded by `[start, start + duration)`.
* Python exceptions are modelled with `Except`: the `ValueError` raised in
  `TraceContainer.__init__` (the spec's `ConfigurationError` kind), the
  store's native not-found signal on reference/feature lookup (the spec's
  `TraceNotFoundError` kind), and store-level index errors.
-/

set_option autoImplicit false

namespace Rlxnix

/-- Python's substring test `pat in s` on strings. -/
def strContains (s pat : String) : Prop :=
  pat.toList <:+: s.toList

instance strContains.decidable (s pat : String) : Decidable (strContains s pat) := by
  unfold strContains
  exact inferInstance

/-- `TimeReference` enum from `trace_container.py`. -/
inductive TimeReference
  | repro_start
  | zero
deriving DecidableEq, Repr

/-- Payload of a backing-store trace (a nixio `DataArray` plus its dimension
descriptor).  Modelled from the spec: a trace is either continuous — paired
with a sampling definition (`dt` = sampling interval, `t0` = absolute time of
sample 0) enabling index-to-timestamp conversion — or event-like, a bare
timestamp sequence. -/
inductive TraceData
  | sampled (dt t0 : ℚ) (values : List ℚ)
  | event (times : List ℚ)
deriving DecidableEq, Repr

/-- A backing-store trace: named, typed, with its data payload. -/
structure Trace where
  name : String
  type : String
  data : TraceData
deriving DecidableEq, Repr

/-- A feature of a tag; `features` in the source reads `feats.data.name` and
`feats.data.type`, so a feature wraps a data array. -/
structure Feature where
  data : Trace
deriving DecidableEq, Repr

/-- A singular region source (nixio `Tag`): scalar position vector, optional
(possibly empty) extent vector, ordered trace references and features. -/
structure Tag where
  name : String
  type : String
  position : List ℚ
  extent : List ℚ
  references : List Trace
  features : List Feature
deriving DecidableEq, Repr

/-- An indexed-sequence region source (nixio `MultiTag`): parallel position
and extent arrays (`positions[i, 0]` is modelled as entry `i` of `positions`);
`extents` is `none` when the multi-tag carries no extent information. -/
structure MultiTag where
  name : String
  type : String
  positions : List ℚ
  extents : Option (List ℚ)
  references : List Trace
  features : List Feature
deriving DecidableEq, Repr

/-- The `tag_or_mtag` constructor argument of `TraceContainer`. -/
inductive TagOrMultiTag
  | tag (t : Tag)
  | mtag (m : MultiTag)
deriving DecidableEq, Repr

def TagOrMultiTag.references : TagOrMultiTag → List Trace
  | .tag t => t.references
  | .mtag m => m.references

def TagOrMultiTag.features : TagOrMultiTag → List Feature
  | .tag t => t.features
  | .mtag m => m.features

def TagOrMultiTag.name : TagOrMultiTag → String
  | .tag t => t.name
  | .mtag m => m.name

def TagOrMultiTag.type : TagOrMultiTag → String
  | .tag t => t.type
  | .mtag m => m.type

/-- The errors surfacing from construction and from the backing store.
`configurationError` is the `ValueError` raised in `__init__` (the spec's
`ConfigurationError` kind); `lookupFailure` is the store's native not-found
signal on an unresolved reference/feature identifier (the spec's
`TraceNotFoundError` kind); `outOfBounds` is the store's index error on
position/extent access; `dimensionMismatch` models requesting a sampled time
axis from a trace that carries no sampling definition. -/
inductive NixError
  | configurationError
  | lookupFailure
  | outOfBounds
  | dimensionMismatch
deriving DecidableEq, Repr

/-- A trace identifier: the `name_or_index` arguments of `trace_data` and
`feature_data`. -/
inductive NameOrIndex
  | name (s : String)
  | index (i : ℕ)
deriving DecidableEq, Repr

/-- Index of the first sample at or after time `q`, for a trace whose sample
`i` lives at `t0 + i * dt`. -/
def sliceLo (dt t0 q : ℚ) : ℕ :=
  (⌈(q - t0) / dt⌉).toNat

/-- One past the index of the last sample strictly before time `q`. -/
def sliceHi (dt t0 q : ℚ) : ℕ :=
  (⌈(q - t0) / dt⌉).toNat

/-- Modelled from the spec: the backing store's slicing operation
(`ref.get_slice([start], [duration], nixio.DataSliceMode.Data)`): returns the
data bounded by `[start, start + duration)` in the trace's native resolution.
For a continuous trace these are the samples whose times `t0 + i * dt` lie in
the interval; for an event trace, the stored timestamps lying in it. -/
def TraceData.slice : TraceData → ℚ → ℚ → List ℚ
  | .sampled dt t0 vals, start, dur =>
      (vals.drop (sliceLo dt t0 start)).take (sliceHi dt t0 (start + dur) - sliceLo dt t0 start)
  | .event times, start, dur =>
      times.filter fun t => decide (start ≤ t) && decide (t < start + dur)

def Trace.get_slice (tr : Trace) (start dur : ℚ) : List ℚ :=
  tr.data.slice start dur

/-- Modelled from the spec: `ref.dimensions[0].axis(count, start_position)` —
the time axis reconstructed from the trace's sampling definition, whose first
entry is `start_position`.  An event trace carries no sampling definition, so
the axis request fails there. -/
def TraceData.timeAxis : TraceData → ℕ → ℚ → Option (List ℚ)
  | .sampled dt _ _, count, start_position =>
      some ((List.range count).map fun i : ℕ => start_position + (i : ℚ) * dt)
  | .event _, _, _ => none

/-- The full stored payload of a trace (`feat_data[:]` for a feature). -/
def TraceData.payload : TraceData → List ℚ
  | .sampled _ _ vals => vals
  | .event times => times

/-- Resolution of `self._tag.references[name_or_index]` in the backing store:
positional, or first entity of that name. -/
def lookupRef (refs : List Trace) : NameOrIndex → Option Trace
  | .index i => refs[i]?
  | .name s => refs.find? fun r => r.name == s

/-- Resolution of a feature identifier in `self._tag.feature_data`. -/
def lookupFeat (feats : List Feature) : NameOrIndex → Option Feature
  | .index i => feats[i]?
  | .name s => feats.find? fun f => f.data.name == s

/-- The state of a constructed `TraceContainer`: the wrapped `self._tag`,
`self._mapping_version`, `self._index`, and the eagerly computed
`self._start_time` and `self._duration`. -/
structure TraceContainer where
  tag : TagOrMultiTag
  mapping_version : ℚ
  index : Option ℕ
  start_time : ℚ
  duration : ℚ
deriving DecidableEq, Repr

/-- `TraceContainer.__init__(tag_or_mtag, index=None, relacs_nix_version=1.1)`:
raises `ValueError` when a multi-tag is passed with `index is None`; otherwise
computes `start_time` from `position[0]` (tag) or `positions[index, 0]`
(multi-tag) and `duration` from `extent[0] if extent else 0.0` (tag) or
`extents[index, 0] if extents else 0.0` (multi-tag).  Python truthiness of the
extent information maps absent (`none`) and empty vectors to `0.0`. -/
def TraceContainer.create (tag_or_mtag : TagOrMultiTag) (index : Option ℕ)
    (relacs_nix_version : ℚ) : Except NixError TraceContainer :=
  match tag_or_mtag, index with
  | .mtag _, none => .error .configurationError
  | .mtag m, some i =>
      match m.positions[i]? with
      | none => .error .outOfBounds
      | some st =>
          match m.extents with
          | none => .ok ⟨.mtag m, relacs_nix_version, some i, st, 0⟩
          | some [] => .ok ⟨.mtag m, relacs_nix_version, some i, st, 0⟩
          | some es =>
              match es[i]? with
              | none => .error .outOfBounds
              | some d => .ok ⟨.mtag m, relacs_nix_version, some i, st, d⟩
  | .tag t, idx =>
      match t.position[0]? with
      | none => .error .outOfBounds
      | some st => .ok ⟨.tag t, relacs_nix_version, idx, st, t.extent.headD 0⟩

/-- The `references` property: `(i, r.name, r.type)` for each referenced
trace, in order. -/
def TraceContainer.references (tc : TraceContainer) : List (ℕ × String × String) :=
  tc.tag.references.enum.map fun p => (p.1, p.2.name, p.2.type)

/-- The `features` property: `(i, feats.data.name, feats.data.type)` for each
feature, in order. -/
def TraceContainer.featureList (tc : TraceContainer) : List (ℕ × String × String) :=
  tc.tag.features.enum.map fun p => (p.1, p.2.data.name, p.2.data.type)

/-- `TraceContainer.trace_data(name_or_index, reference=TimeReference.zero)`.
`type_map` stands for the module-level table of `rlxnix/mappings.py` (absent
from the sources), modelled from the spec: it yields, per mapping version, the
literal type-label substring marking continuous traces
(`type_map[self._mapping_version][DataType.continuous]`).  The source's
default for `reference` is `TimeReference.zero`; here the argument is always
passed explicitly. -/
def TraceContainer.trace_data (type_map : ℚ → String) (tc : TraceContainer)
    (name_or_index : NameOrIndex) (reference : TimeReference) :
    Except NixError (List ℚ × Option (List ℚ)) :=
  match lookupRef tc.tag.references name_or_index with
  | none => .error .lookupFailure
  | some ref =>
      let continuous_data_type := type_map tc.mapping_version
      let data := ref.get_slice tc.start_time tc.duration
      let start_position := if reference = TimeReference.repro_start then tc.start_time else 0
      if strContains ref.type continuous_data_type then
        match ref.data.timeAxis data.length start_position with
        | some time => .ok (data, some time)
        | none => .error .dimensionMismatch
      else
        .ok (data.map fun d => d - tc.start_time, none)

/-- `TraceContainer.feature_data(name_or_index)`: the feature's full payload,
never sliced by the region bounds. -/
def TraceContainer.feature_data (tc : TraceContainer) (name_or_index : NameOrIndex) :
    Except NixError (List ℚ) :=
  match lookupFeat tc.tag.features name_or_index with
  | none => .error .lookupFailure
  | some f => .ok f.data.data.payload

/-- Unfolding equation for `create` on a singular (tag) source. -/
theorem create_tag_eq (t : Tag) (idx : Option ℕ) (v : ℚ) :
    TraceContainer.create (.tag t) idx v =
      match t.position[0]? with
      | none => .error .outOfBounds
      | some st => .ok ⟨.tag t, v, idx, st, t.extent.headD 0⟩ := by
  cases idx <;> rfl

/-- Unfolding equation for `create` on an indexed (multi-tag) source with a
supplied index. -/
theorem create_mtag_eq (m : MultiTag) (i : ℕ) (v : ℚ) :
    TraceContainer.create (.mtag m) (some i) v =
      match m.positions[i]? with
      | none => .error .outOfBounds
      | some st =>
          match m.extents with
          | none => .ok ⟨.mtag m, v, some i, st, 0⟩
          | some [] => .ok ⟨.mtag m, v, some i, st, 0⟩
          | some es =>
              match es[i]? with
              | none => .error .outOfBounds
              | some d => .ok ⟨.mtag m, v, some i, st, d⟩ := rfl

theorem lookupRef_index (refs : List Trace) (i : ℕ) :
    lookupRef refs (.index i) = refs[i]? := rfl

theorem lookupRef_name (refs : List Trace) (s : String) :
    lookupRef refs (.name s) = refs.find? (fun r => r.name == s) := rfl

/-- `trace_data` depends on the identifier only through the store's
reference lookup. -/
theorem trace_data_eq_of_lookup_eq (type_map : ℚ → String) (tc : TraceContainer)
    (k1 k2 : NameOrIndex) (r : TimeReference)
    (h : lookupRef tc.tag.references k1 = lookupRef tc.tag.references k2) :
    tc.trace_data type_map k1 r = tc.trace_data type_map k2 r := by
  unfold TraceContainer.trace_data
  rw [h]

/-- Evaluation of `trace_data` on an identifier resolving to a continuous
trace whose type label carries the continuous marker. -/
theorem trace_data_continuous (type_map : ℚ → String) (tc : TraceContainer)
    (key : NameOrIndex) (ref : Trace) (dt t0 : ℚ) (vals : List ℚ)
    (href : lookupRef tc.tag.references key = some ref)
    (hdat : ref.data = .sampled dt t0 vals)
    (hcont : strContains ref.type (type_map tc.mapping_version)) (r : TimeReference) :
    tc.trace_data type_map key r =
      .ok (TraceData.slice (.sampled dt t0 vals) tc.start_time tc.duration,
        some ((List.range
            (TraceData.slice (.sampled dt t0 vals) tc.start_time tc.duration).length).map
          fun i : ℕ => (if r = TimeReference.repro_start then tc.start_time else 0)
            + (i : ℚ) * dt)) := by
  unfold TraceContainer.trace_data
  rw [href]
  dsimp only [Trace.get_slice]
  rw [hdat, if_pos hcont]
  rfl

/-- Evaluation of `trace_data` on an identifier resolving to an event trace
whose type label lacks the continuous marker. -/
theorem trace_data_event (type_map : ℚ → String) (tc : TraceContainer)
    (key : NameOrIndex) (ref : Trace) (times : List ℚ)
    (href : lookupRef tc.tag.references key = some ref)
    (hdat : ref.data = .event times)
    (hev : ¬ strContains ref.type (type_map tc.mapping_version)) (r : TimeReference) :
    tc.trace_data type_map key r =
      .ok ((times.filter fun t =>
          decide (tc.start_time ≤ t) && decide (t < tc.start_time + tc.duration)).map
        (fun d => d - tc.start_time), none) := by
  unfold TraceContainer.trace_data
  rw [href]
  dsimp only [Trace.get_slice]
  rw [hdat, if_neg hev]
  rfl

theorem head?_range_map {α : Type} (f : ℕ → α) (n : ℕ) (h : n ≠ 0) :
    ((List.range n).map f).head? = some (f 0) := by
  cases n with
  | zero => exact absurd rfl h
  | succ m =>
      rw [List.range_succ_eq_map]
      rfl

/-- C4: constructing a container from an indexed-sequence (multi-tag) region
source with `index = None` fails with the configuration error (the source's
`ValueError` in `__init__`) immediately at construction, before any
position/extent access, regardless of the sequence's contents. -/
theorem C4_multitag_without_index_fails (m : MultiTag) (v : ℚ) :
    TraceContainer.create (.mtag m) none v = .error .configurationError := rfl

/-- C6: a region source whose extent information is absent or empty yields
`duration = 0.0` and construction succeeds; otherwise the duration is the
scalar extent of a singular source, or the extent-array entry at the supplied
index for an indexed source. -/
theorem C6_duration_default (v : ℚ) :
    (∀ (t : Tag) (idx : Option ℕ) (st : ℚ), t.position[0]? = some st → t.extent = [] →
      ∃ c : TraceContainer, TraceContainer.create (.tag t) idx v = .ok c ∧ c.duration = 0)
  ∧ (∀ (t : Tag) (idx : Option ℕ) (st e : ℚ) (es : List ℚ),
      t.position[0]? = some st → t.extent = e :: es →
      ∃ c : TraceContainer, TraceContainer.create (.tag t) idx v = .ok c ∧ c.duration = e)
  ∧ (∀ (m : MultiTag) (i : ℕ) (st : ℚ), m.positions[i]? = some st →
      (m.extents = none ∨ m.extents = some []) →
      ∃ c : TraceContainer, TraceContainer.create (.mtag m) (some i) v = .ok c ∧ c.duration = 0)
  ∧ (∀ (m : MultiTag) (i : ℕ) (st d e : ℚ) (es : List ℚ),
      m.positions[i]? = some st → m.extents = some (e :: es) → (e :: es)[i]? = some d →
      ∃ c : TraceContainer, TraceContainer.create (.mtag m) (some i) v = .ok c ∧ c.duration = d) := by
  refine ⟨?_, ?_, ?_, ?_⟩
  · intro t idx st hpos hext
    rw [create_tag_eq, hpos, hext]
    exact ⟨_, rfl, rfl⟩
  · intro t idx st e es hpos hext
    rw [create_tag_eq, hpos, hext]
    exact ⟨_, rfl, rfl⟩
  · intro m i st hpos hext
    rcases hext with h | h
    · rw [create_mtag_eq, hpos, h]
      exact ⟨_, rfl, rfl⟩
    · rw [create_mtag_eq, hpos, h]
      exact ⟨_, rfl, rfl⟩
  · intro m i st d e es hpos hext hidx
    rw [create_mtag_eq, hpos, hext]
    dsimp only
    rw [hidx]
    exact ⟨_, rfl, rfl⟩

/-- Witness for C6: concrete constructions of each shape. -/
theorem C6_duration_default_witness :
    (∃ c : TraceContainer,
      TraceContainer.create (.tag ⟨"t", "ty", [5], [], [], []⟩) none 1.1 = .ok c ∧
      c.duration = 0)
  ∧ (∃ c : TraceContainer,
      TraceContainer.create (.tag ⟨"t", "ty", [5], [2], [], []⟩) none 1.1 = .ok c ∧
      c.duration = 2)
  ∧ (∃ c : TraceContainer,
      TraceContainer.create (.mtag ⟨"m", "ty", [1, 4], none, [], []⟩) (some 1) 1.1 = .ok c ∧
      c.duration = 0)
  ∧ (∃ c : TraceContainer,
      TraceContainer.create (.mtag ⟨"m", "ty", [1, 4], some [3, 7], [], []⟩) (some 1) 1.1 = .ok c ∧
      c.duration = 7) :=
  ⟨(C6_duration_default 1.1).1 _ none 5 rfl rfl,
   (C6_duration_default 1.1).2.1 _ none 5 2 [] rfl rfl,
   (C6_duration_default 1.1).2.2.1 _ 1 4 rfl (Or.inl rfl),
   (C6_duration_default 1.1).2.2.2 _ 1 4 7 3 [7] rfl rfl rfl⟩

/-- C8: an identifier that does not resolve makes `trace_data` and
`feature_data` fail with the backing store's native lookup-failure signal,
propagated untranslated; neither ever returns an `ok` (empty or otherwise)
for an unresolved identifier. -/
theorem C8_unresolved_identifier_propagates (type_map : ℚ → String)
    (tc : TraceContainer) (k1 k2 : NameOrIndex) (r : TimeReference)
    (h1 : lookupRef tc.tag.references k1 = none)
    (h2 : lookupFeat tc.tag.features k2 = none) :
    tc.trace_data type_map k1 r = .error .lookupFailure ∧
    tc.feature_data k2 = .error .lookupFailure := by
  constructor
  · unfold TraceContainer.trace_data
    rw [h1]
  · unfold TraceContainer.feature_data
    rw [h2]

/-- Witness for C8: an unknown name and a far out-of-range index both fail
loudly on a concrete container. -/
theorem C8_unresolved_identifier_propagates_witness :
    TraceContainer.trace_data (fun _ => "sampled")
      ⟨.tag ⟨"t", "ty", [0], [1], [], []⟩, 1.1, none, 0, 1⟩ (.name "nonexistent") .zero
        = .error .lookupFailure ∧
    TraceContainer.feature_data
      ⟨.tag ⟨"t", "ty", [0], [1], [], []⟩, 1.1, none, 0, 1⟩ (.index 999999)
        = .error .lookupFailure :=
  C8_unresolved_identifier_propagates (fun _ => "sampled")
    ⟨.tag ⟨"t", "ty", [0], [1], [], []⟩, 1.1, none, 0, 1⟩
    (.name "nonexistent") (.index 999999) .zero rfl rfl

/-- C9: for a singular (non-indexed) region source the `index` argument is
ignored: any two index values (including `None`) construct containers that
agree on success/failure, on `start_time` and `duration`, and on every
`trace_data` / `feature_data` output. -/
theorem C9_singular_source_ignores_index (t : Tag) (i1 i2 : Option ℕ) (v : ℚ) :
    (TraceContainer.create (.tag t) i1 v).isOk = (TraceContainer.create (.tag t) i2 v).isOk
  ∧ ∀ c1 c2 : TraceContainer,
      TraceContainer.create (.tag t) i1 v = .ok c1 →
      TraceContainer.create (.tag t) i2 v = .ok c2 →
      c1.start_time = c2.start_time ∧ c1.duration = c2.duration ∧
      (∀ (type_map : ℚ → String) (key : NameOrIndex) (r : TimeReference),
        c1.trace_data type_map key r = c2.trace_data type_map key r) ∧
      (∀ key : NameOrIndex, c1.feature_data key = c2.feature_data key) := by
  rw [create_tag_eq t i1 v, create_tag_eq t i2 v]
  cases hpos : t.position[0]? with
  | none =>
      refine ⟨rfl, ?_⟩
      intro c1 c2 h1 h2
      exact Except.noConfusion h1
  | some st =>
      refine ⟨rfl, ?_⟩
      intro c1 c2 h1 h2
      have e1 := Except.ok.inj h1
      have e2 := Except.ok.inj h2
      subst e1
      subst e2
      exact ⟨rfl, rfl, fun _ _ _ => rfl, fun _ => rfl⟩

/-- Witness for C9: a concrete singular region constructed with `None` and
with index `3` behaves identically. -/
theorem C9_singular_source_ignores_index_witness :
    (⟨.tag ⟨"t", "ty", [5], [2], [], []⟩, 1.1, none, 5, 2⟩ : TraceContainer).start_time
      = (⟨.tag ⟨"t", "ty", [5], [2], [], []⟩, 1.1, some 3, 5, 2⟩ : TraceContainer).start_time ∧
    (⟨.tag ⟨"t", "ty", [5], [2], [], []⟩, 1.1, none, 5, 2⟩ : TraceContainer).duration
      = (⟨.tag ⟨"t", "ty", [5], [2], [], []⟩, 1.1, some 3, 5, 2⟩ : TraceContainer).duration := by
  have h := (C9_singular_source_ignores_index ⟨"t", "ty", [5], [2], [], []⟩ none (some 3) 1.1).2
    ⟨.tag ⟨"t", "ty", [5], [2], [], []⟩, 1.1, none, 5, 2⟩
    ⟨.tag ⟨"t", "ty", [5], [2], [], []⟩, 1.1, some 3, 5, 2⟩ rfl rfl
  exact ⟨h.1, h.2.1⟩

/-- C1: for a trace whose type label carries the active mapping version's
continuous marker and whose payload is continuous, both reference frames
return the same underlying sample values; the time axis of
`reference = repro_start` starts exactly at the region's `start_time` and
that of `reference = zero` starts exactly at `0.0` (exact equality, hence
within one sample period). -/
theorem C1_continuous_reference_frame (type_map : ℚ → String) (tc : TraceContainer)
    (key : NameOrIndex) (ref : Trace) (dt t0 : ℚ) (vals : List ℚ)
    (href : lookupRef tc.tag.references key = some ref)
    (hdat : ref.data = .sampled dt t0 vals)
    (hcont : strContains ref.type (type_map tc.mapping_version)) :
    ∃ d tr tz : List ℚ,
      tc.trace_data type_map key .repro_start = .ok (d, some tr) ∧
      tc.trace_data type_map key .zero = .ok (d, some tz) ∧
      (d ≠ [] → tr.head? = some tc.start_time ∧ tz.head? = some 0) := by
  rw [trace_data_continuous type_map tc key ref dt t0 vals href hdat hcont .repro_start]
  rw [trace_data_continuous type_map tc key ref dt t0 vals href hdat hcont .zero]
  refine ⟨_, _, _, rfl, rfl, ?_⟩
  intro hne
  have hn : (TraceData.slice (.sampled dt t0 vals) tc.start_time tc.duration).length ≠ 0 :=
    fun h => hne (List.length_eq_zero.mp h)
  constructor
  · rw [head?_range_map _ _ hn]
    simp
  · rw [head?_range_map _ _ hn]
    simp

/-- Witness for C1: a 1 Hz trace holding `[42]`, region `[0, 1)`. -/
theorem C1_continuous_reference_frame_witness :
    ∃ d tr tz : List ℚ,
      TraceContainer.trace_data (fun _ => "sampled")
        ⟨.tag ⟨"t", "ty", [0], [1], [⟨"V", "relacs.data.sampled", .sampled 1 0 [42]⟩], []⟩,
          1.1, none, 0, 1⟩ (.index 0) .repro_start = .ok (d, some tr) ∧
      TraceContainer.trace_data (fun _ => "sampled")
        ⟨.tag ⟨"t", "ty", [0], [1], [⟨"V", "relacs.data.sampled", .sampled 1 0 [42]⟩], []⟩,
          1.1, none, 0, 1⟩ (.index 0) .zero = .ok (d, some tz) ∧
      (d ≠ [] → tr.head? = some (0 : ℚ) ∧ tz.head? = some 0) :=
  C1_continuous_reference_frame (fun _ => "sampled")
    ⟨.tag ⟨"t", "ty", [0], [1], [⟨"V", "relacs.data.sampled", .sampled 1 0 [42]⟩], []⟩,
      1.1, none, 0, 1⟩
    (.index 0) ⟨"V", "relacs.data.sampled", .sampled 1 0 [42]⟩ 1 0 [42]
    rfl rfl (by decide)

/-- C10: on a continuous trace the returned pair has a time axis of exactly
the same length as the data slice, for either reference frame. -/
theorem C10_time_axis_length (type_map : ℚ → String) (tc : TraceContainer)
    (key : NameOrIndex) (ref : Trace) (dt t0 : ℚ) (vals : List ℚ)
    (href : lookupRef tc.tag.references key = some ref)
    (hdat : ref.data = .sampled dt t0 vals)
    (hcont : strContains ref.type (type_map tc.mapping_version)) (r : TimeReference) :
    ∃ d time : List ℚ,
      tc.trace_data type_map key r = .ok (d, some time) ∧ time.length = d.length := by
  rw [trace_data_continuous type_map tc key ref dt t0 vals href hdat hcont r]
  exact ⟨_, _, rfl, by simp⟩

/-- Witness for C10: the C1 witness trace, `reference = zero`. -/
theorem C10_time_axis_length_witness :
    ∃ d time : List ℚ,
      TraceContainer.trace_data (fun _ => "sampled")
        ⟨.tag ⟨"t", "ty", [0], [1], [⟨"V", "relacs.data.sampled", .sampled 1 0 [42]⟩], []⟩,
          1.1, none, 0, 1⟩ (.index 0) .zero = .ok (d, some time) ∧
      time.length = d.length :=
  C10_time_axis_length (fun _ => "sampled")
    ⟨.tag ⟨"t", "ty", [0], [1], [⟨"V", "relacs.data.sampled", .sampled 1 0 [42]⟩], []⟩,
      1.1, none, 0, 1⟩
    (.index 0) ⟨"V", "relacs.data.sampled", .sampled 1 0 [42]⟩ 1 0 [42]
    rfl rfl (by decide) .zero

/-- C2: on an event trace (type label without the continuous marker) the
result is the same for both values of `reference`, its second element is
`none`, and every returned value is an original backing-store timestamp
minus `start_time`. -/
theorem C2_event_offset (type_map : ℚ → String) (tc : TraceContainer)
    (key : NameOrIndex) (ref : Trace) (times : List ℚ)
    (href : lookupRef tc.tag.references key = some ref)
    (hdat : ref.data = .event times)
    (hev : ¬ strContains ref.type (type_map tc.mapping_version)) :
    ∃ d : List ℚ,
      (∀ r : TimeReference, tc.trace_data type_map key r = .ok (d, none)) ∧
      ∀ (j : ℕ) (v : ℚ), d[j]? = some v →
        ∃ ts : ℚ, ts ∈ times ∧ v = ts - tc.start_time := by
  refine ⟨_, fun r => trace_data_event type_map tc key ref times href hdat hev r, ?_⟩
  intro j v hj
  rw [List.getElem?_map] at hj
  rcases Option.map_eq_some'.mp hj with ⟨ts, hts, hv⟩
  exact ⟨ts, (List.mem_filter.mp (List.getElem?_mem hts)).1, hv.symm⟩

/-- Witness for C2: an event trace with one stamp at `t = 1` in a region
starting at `0`. -/
theorem C2_event_offset_witness :
    ∃ d : List ℚ,
      (∀ r : TimeReference,
        TraceContainer.trace_data (fun _ => "sampled")
          ⟨.tag ⟨"t", "ty", [0], [2], [⟨"S", "relacs.data.events", .event [1]⟩], []⟩,
            1.1, none, 0, 2⟩ (.index 0) r = .ok (d, none)) ∧
      ∀ (j : ℕ) (v : ℚ), d[j]? = some v → ∃ ts : ℚ, ts ∈ [(1 : ℚ)] ∧ v = ts - 0 :=
  C2_event_offset (fun _ => "sampled")
    ⟨.tag ⟨"t", "ty", [0], [2], [⟨"S", "relacs.data.events", .event [1]⟩], []⟩,
      1.1, none, 0, 2⟩
    (.index 0) ⟨"S", "relacs.data.events", .event [1]⟩ [1]
    rfl rfl (by decide)

/-- C7: on a fixed container, when distinct referenced traces have distinct
names (the backing store enforces name uniqueness), the positional lookup
`trace_data(i)` and the name lookup `trace_data(name_at(i))` — the name
recorded in `references[i]` — return identical results. -/
theorem C7_lookup_stability (type_map : ℚ → String) (tc : TraceContainer)
    (huniq : ∀ t1 t2 : Trace, t1 ∈ tc.tag.references → t2 ∈ tc.tag.references →
      t1.name = t2.name → t1 = t2)
    (i : ℕ) (nm ty : String) (r : TimeReference)
    (hi : tc.references[i]? = some (i, nm, ty)) :
    tc.trace_data type_map (.index i) r = tc.trace_data type_map (.name nm) r := by
  unfold TraceContainer.references at hi
  rw [List.getElem?_map, List.getElem?_enum] at hi
  rcases Option.map_eq_some'.mp hi with ⟨p, hp, hfp⟩
  rcases Option.map_eq_some'.mp hp with ⟨tr, htr, hptr⟩
  subst hptr
  have hname : tr.name = nm := congrArg (fun q : ℕ × String × String => q.2.1) hfp
  have hmem : tr ∈ tc.tag.references := List.getElem?_mem htr
  have hsome : (tc.tag.references.find? fun rr => rr.name == nm).isSome := by
    rw [List.find?_isSome]
    exact ⟨tr, hmem, by simp [hname]⟩
  rcases Option.isSome_iff_exists.mp hsome with ⟨t1, ht1⟩
  have ht1name : t1.name = nm := by
    have hb := List.find?_some ht1
    simpa using hb
  have ht1tr : t1 = tr := huniq t1 tr (List.mem_of_find?_eq_some ht1) hmem
    (ht1name.trans hname.symm)
  subst ht1tr
  apply trace_data_eq_of_lookup_eq
  rw [lookupRef_index, lookupRef_name, htr, ht1]

/-- Witness for C7: a single-trace container looked up by index 0 and by its
name. -/
theorem C7_lookup_stability_witness :
    TraceContainer.trace_data (fun _ => "sampled")
      ⟨.tag ⟨"t", "ty", [0], [1], [⟨"V", "relacs.data.sampled", .sampled 1 0 [42]⟩], []⟩,
        1.1, none, 0, 1⟩ (.index 0) .zero =
    TraceContainer.trace_data (fun _ => "sampled")
      ⟨.tag ⟨"t", "ty", [0], [1], [⟨"V", "relacs.data.sampled", .sampled 1 0 [42]⟩], []⟩,
        1.1, none, 0, 1⟩ (.name "V") .zero :=
  C7_lookup_stability (fun _ => "sampled")
    ⟨.tag ⟨"t", "ty", [0], [1], [⟨"V", "relacs.data.sampled", .sampled 1 0 [42]⟩], []⟩,
      1.1, none, 0, 1⟩
    (fun t1 t2 h1 h2 _ => by
      rw [List.mem_singleton.mp h1, List.mem_singleton.mp h2])
    0 "V" "relacs.data.sampled" .zero rfl

/-- Lower time bound for a sample index at or past `sliceLo`. -/
theorem sliceLo_le_time (dt t0 start : ℚ) (hdt : 0 < dt) (i : ℕ)
    (hle : sliceLo dt t0 start ≤ i) : start ≤ t0 + (i : ℚ) * dt := by
  have hceil : (⌈(start - t0) / dt⌉ : ℤ) ≤ (i : ℤ) := by
    calc (⌈(start - t0) / dt⌉ : ℤ)
        ≤ ((⌈(start - t0) / dt⌉.toNat : ℕ) : ℤ) := Int.self_le_toNat _
      _ ≤ (i : ℤ) := by
          rw [sliceLo] at hle
          exact_mod_cast hle
  have hdiv : (start - t0) / dt ≤ (i : ℚ) := by
    have h := Int.ceil_le.mp hceil
    exact_mod_cast h
  have hmul := (div_le_iff₀ hdt).mp hdiv
  linarith

/-- Upper time bound for a sample index below `sliceHi`. -/
theorem time_lt_of_lt_sliceHi (dt t0 q : ℚ) (hdt : 0 < dt) (i : ℕ)
    (hlt : i < sliceHi dt t0 q) : t0 + (i : ℚ) * dt < q := by
  rw [sliceHi] at hlt
  have h2 : (i : ℤ) < ⌈(q - t0) / dt⌉ := Int.lt_toNat.mp hlt
  have h3 : (i : ℚ) < (q - t0) / dt := by
    have h := Int.lt_ceil.mp h2
    exact_mod_cast h
  have h4 := (lt_div_iff₀ hdt).mp h3
  linarith

/-- Every value of a continuous slice is a stored sample whose absolute
sample time lies in `[start, start + dur)`. -/
theorem slice_sampled_getElem (dt t0 : ℚ) (vals : List ℚ) (start dur : ℚ)
    (hdt : 0 < dt) (j : ℕ) (v : ℚ)
    (hj : (TraceData.slice (.sampled dt t0 vals) start dur)[j]? = some v) :
    ∃ i : ℕ, vals[i]? = some v ∧ start ≤ t0 + (i : ℚ) * dt ∧
      t0 + (i : ℚ) * dt < start + dur := by
  dsimp only [TraceData.slice] at hj
  by_cases hjk : j < sliceHi dt t0 (start + dur) - sliceLo dt t0 start
  · rw [List.getElem?_take, if_pos hjk, List.getElem?_drop] at hj
    refine ⟨sliceLo dt t0 start + j, hj, ?_, ?_⟩
    · exact sliceLo_le_time dt t0 start hdt _ (Nat.le_add_right _ j)
    · exact time_lt_of_lt_sliceHi dt t0 (start + dur) hdt _ (by omega)
  · rw [List.getElem?_take, if_neg hjk] at hj
    exact absurd hj (by simp)

/-- A slice of zero duration is empty, for either trace kind. -/
theorem slice_zero_duration (td : TraceData) (start : ℚ) :
    td.slice start 0 = [] := by
  cases td with
  | sampled dt t0 vals =>
      dsimp only [TraceData.slice]
      rw [add_zero, show sliceHi dt t0 start = sliceLo dt t0 start from rfl,
        Nat.sub_self, List.take_zero]
  | event times =>
      dsimp only [TraceData.slice]
      rw [List.filter_eq_nil_iff]
      intro a _
      simp only [add_zero, Bool.and_eq_true, decide_eq_true_eq, not_and, not_lt]
      exact fun h => h

/-- C5: every value returned by `trace_data` comes from a backing-store
timestamp inside `[start_time, start_time + duration)` — for a continuous
trace the sample's absolute time, for an event trace the returned value plus
`start_time` — and a zero duration always yields an empty data slice. -/
theorem C5_slice_bounds (type_map : ℚ → String) :
    (∀ (tc : TraceContainer) (key : NameOrIndex) (ref : Trace) (dt t0 : ℚ)
        (vals : List ℚ) (r : TimeReference) (d : List ℚ) (ts : Option (List ℚ))
        (j : ℕ) (v : ℚ),
        lookupRef tc.tag.references key = some ref → ref.data = .sampled dt t0 vals →
        strContains ref.type (type_map tc.mapping_version) → 0 < dt →
        tc.trace_data type_map key r = .ok (d, ts) → d[j]? = some v →
        ∃ i : ℕ, vals[i]? = some v ∧ tc.start_time ≤ t0 + (i : ℚ) * dt ∧
          t0 + (i : ℚ) * dt < tc.start_time + tc.duration)
  ∧ (∀ (tc : TraceContainer) (key : NameOrIndex) (ref : Trace) (times : List ℚ)
        (r : TimeReference) (d : List ℚ) (ts : Option (List ℚ)) (j : ℕ) (v : ℚ),
        lookupRef tc.tag.references key = some ref → ref.data = .event times →
        ¬ strContains ref.type (type_map tc.mapping_version) →
        tc.trace_data type_map key r = .ok (d, ts) → d[j]? = some v →
        (v + tc.start_time) ∈ times ∧ tc.start_time ≤ v + tc.start_time ∧
          v + tc.start_time < tc.start_time + tc.duration)
  ∧ (∀ (tc : TraceContainer) (key : NameOrIndex) (r : TimeReference)
        (d : List ℚ) (ts : Option (List ℚ)),
        tc.duration = 0 → tc.trace_data type_map key r = .ok (d, ts) → d = []) := by
  refine ⟨?_, ?_, ?_⟩
  · intro tc key ref dt t0 vals r d ts j v href hdat hcont hdt htd hj
    rw [trace_data_continuous type_map tc key ref dt t0 vals href hdat hcont r] at htd
    have hd : TraceData.slice (.sampled dt t0 vals) tc.start_time tc.duration = d :=
      congrArg Prod.fst (Except.ok.inj htd)
    rw [← hd] at hj
    exact slice_sampled_getElem dt t0 vals tc.start_time tc.duration hdt j v hj
  · intro tc key ref times r d ts j v href hdat hev htd hj
    rw [trace_data_event type_map tc key ref times href hdat hev r] at htd
    have hd : (times.filter fun t =>
        decide (tc.start_time ≤ t) && decide (t < tc.start_time + tc.duration)).map
          (fun x => x - tc.start_time) = d :=
      congrArg Prod.fst (Except.ok.inj htd)
    rw [← hd, List.getElem?_map] at hj
    rcases Option.map_eq_some'.mp hj with ⟨w, hw, hv⟩
    have hmem := List.mem_filter.mp (List.getElem?_mem hw)
    have hpred := hmem.2
    simp only [Bool.and_eq_true, decide_eq_true_eq] at hpred
    have hvw : v + tc.start_time = w := by
      rw [← hv]
      ring
    rw [hvw]
    exact ⟨hmem.1, hpred.1, hpred.2⟩
  · intro tc key r d ts hdur htd
    unfold TraceContainer.trace_data at htd
    cases href : lookupRef tc.tag.references key with
    | none =>
        rw [href] at htd
        exact absurd htd (by simp)
    | some ref =>
        rw [href] at htd
        dsimp only [Trace.get_slice] at htd
        rw [hdur, slice_zero_duration] at htd
        by_cases hc : strContains ref.type (type_map tc.mapping_version)
        · rw [if_pos hc] at htd
          cases hrd : ref.data with
          | sampled dt t0 vals =>
              rw [hrd] at htd
              dsimp only [TraceData.timeAxis] at htd
              exact (congrArg Prod.fst (Except.ok.inj htd)).symm
          | event times =>
              rw [hrd] at htd
              exact absurd htd (by simp [TraceData.timeAxis])
        · rw [if_neg hc] at htd
          have := congrArg Prod.fst (Except.ok.inj htd)
          simpa using this.symm

/-- Witness for C5: a 1 Hz sample at `t = 0` in region `[0, 1)`, an event
stamp at `t = 1` in region `[0, 2)`, and a zero-duration region. -/
theorem C5_slice_bounds_witness :
    (∃ i : ℕ, [(42 : ℚ)][i]? = some 42 ∧ (0 : ℚ) ≤ 0 + (i : ℚ) * 1 ∧
      0 + (i : ℚ) * 1 < 0 + 1)
  ∧ ((1 : ℚ) + 0 ∈ [(1 : ℚ)] ∧ (0 : ℚ) ≤ 1 + 0 ∧ (1 : ℚ) + 0 < 0 + 2)
  ∧ ([] : List ℚ) = [] := by
  refine ⟨?_, ?_, ?_⟩
  · exact (C5_slice_bounds (fun _ => "sampled")).1
      ⟨.tag ⟨"t", "ty", [0], [1], [⟨"V", "relacs.data.sampled", .sampled 1 0 [42]⟩], []⟩,
        1.1, none, 0, 1⟩ (.index 0)
      ⟨"V", "relacs.data.sampled", .sampled 1 0 [42]⟩ 1 0 [42] .zero [42] (some [0]) 0 42
      rfl rfl (by decide) (by norm_num)
      (by
        rw [trace_data_continuous (fun _ => "sampled")
          ⟨.tag ⟨"t", "ty", [0], [1], [⟨"V", "relacs.data.sampled", .sampled 1 0 [42]⟩], []⟩,
            1.1, none, 0, 1⟩ (.index 0)
          ⟨"V", "relacs.data.sampled", .sampled 1 0 [42]⟩ 1 0 [42] rfl rfl (by decide) .zero]
        norm_num [TraceData.slice, sliceLo, sliceHi, List.range_succ])
      rfl
  · exact (C5_slice_bounds (fun _ => "sampled")).2.1
      ⟨.tag ⟨"t", "ty", [0], [2], [⟨"S", "relacs.data.events", .event [1]⟩], []⟩,
        1.1, none, 0, 2⟩ (.index 0)
      ⟨"S", "relacs.data.events", .event [1]⟩ [1] .zero [1] none 0 1
      rfl rfl (by decide)
      (by
        rw [trace_data_event (fun _ => "sampled")
          ⟨.tag ⟨"t", "ty", [0], [2], [⟨"S", "relacs.data.events", .event [1]⟩], []⟩,
            1.1, none, 0, 2⟩ (.index 0)
          ⟨"S", "relacs.data.events", .event [1]⟩ [1] rfl rfl (by decide) .zero]
        norm_num)
      rfl
  · exact (C5_slice_bounds (fun _ => "sampled")).2.2
      ⟨.tag ⟨"t", "ty", [0], [], [⟨"S", "relacs.data.events", .event [1]⟩], []⟩,
        1.1, none, 0, 0⟩ (.index 0) .zero [] none rfl
      (by
        rw [trace_data_event (fun _ => "sampled")
          ⟨.tag ⟨"t", "ty", [0], [], [⟨"S", "relacs.data.events", .event [1]⟩], []⟩,
            1.1, none, 0, 0⟩ (.index 0)
          ⟨"S", "relacs.data.events", .event [1]⟩ [1] rfl rfl (by decide) .zero]
        norm_num)

/-- C3: one continuous trace sampled at 1000 Hz starting at absolute `t = 0`
(sampling interval `1/1000`), region `start_time = 5.0`, `duration = 2.0`:
`reference = zero` returns 2000 samples with time axis
`[0, 0.001, ..., 1.999]`, and `reference = repro_start` returns the same 2000
samples with time axis `[5, 5.001, ..., 6.999]`; the samples are the stored
values for `t` in `[5, 7)`. -/
theorem C3_example_scenario (type_map : ℚ → String) (nm ty : String) (vals : List ℚ)
    (hlen : 7000 ≤ vals.length)
    (hcont : strContains ty (type_map 1.1)) :
    ∃ d : List ℚ,
      TraceContainer.trace_data type_map
        ⟨.tag ⟨"t", "rty", [5], [2], [⟨nm, ty, .sampled (1/1000) 0 vals⟩], []⟩,
          1.1, none, 5, 2⟩ (.index 0) .zero
        = .ok (d, some ((List.range 2000).map fun i : ℕ => (i : ℚ) / 1000)) ∧
      TraceContainer.trace_data type_map
        ⟨.tag ⟨"t", "rty", [5], [2], [⟨nm, ty, .sampled (1/1000) 0 vals⟩], []⟩,
          1.1, none, 5, 2⟩ (.index 0) .repro_start
        = .ok (d, some ((List.range 2000).map fun i : ℕ => 5 + (i : ℚ) / 1000)) ∧
      d.length = 2000 ∧ d = (vals.drop 5000).take 2000 := by
  have hslice : TraceData.slice (.sampled (1/1000) 0 vals) 5 2
      = (vals.drop 5000).take 2000 := by
    dsimp only [TraceData.slice]
    have hlo : sliceLo (1/1000) 0 5 = 5000 := by
      rw [sliceLo]
      have h5 : ((5:ℚ) - 0) / (1/1000) = ((5000 : ℤ) : ℚ) := by norm_num
      rw [h5, Int.ceil_intCast]
      rfl
    have hhi : sliceHi (1/1000) 0 (5 + 2) = 7000 := by
      rw [sliceHi]
      have h7 : ((5:ℚ) + 2 - 0) / (1/1000) = ((7000 : ℤ) : ℚ) := by norm_num
      rw [h7, Int.ceil_intCast]
      rfl
    rw [hlo, hhi]
  have hdlen : ((vals.drop 5000).take 2000).length = 2000 := by
    rw [List.length_take, List.length_drop]
    omega
  have hmz : (List.range 2000).map (fun i : ℕ => (0:ℚ) + (i:ℚ) * (1/1000))
      = (List.range 2000).map fun i : ℕ => (i : ℚ) / 1000 := by
    apply List.map_congr_left
    intro i _
    ring
  have hmr : (List.range 2000).map (fun i : ℕ => (5:ℚ) + (i:ℚ) * (1/1000))
      = (List.range 2000).map fun i : ℕ => 5 + (i : ℚ) / 1000 := by
    apply List.map_congr_left
    intro i _
    ring
  refine ⟨(vals.drop 5000).take 2000, ?_, ?_, hdlen, rfl⟩
  · rw [trace_data_continuous type_map
      ⟨.tag ⟨"t", "rty", [5], [2], [⟨nm, ty, .sampled (1/1000) 0 vals⟩], []⟩,
        1.1, none, 5, 2⟩ (.index 0)
      ⟨nm, ty, .sampled (1/1000) 0 vals⟩ (1/1000) 0 vals rfl rfl hcont .zero]
    dsimp only
    rw [hslice, hdlen]
    simp only [if_neg (show ¬ (TimeReference.zero = TimeReference.repro_start) by decide)]
    rw [hmz]
  · rw [trace_data_continuous type_map
      ⟨.tag ⟨"t", "rty", [5], [2], [⟨nm, ty, .sampled (1/1000) 0 vals⟩], []⟩,
        1.1, none, 5, 2⟩ (.index 0)
      ⟨nm, ty, .sampled (1/1000) 0 vals⟩ (1/1000) 0 vals rfl rfl hcont .repro_start]
    dsimp only
    rw [hslice, hdlen]
    simp only [if_pos (rfl : TimeReference.repro_start = TimeReference.repro_start), if_true]
    rw [hmr]


/-- Witness for C3: the scenario instantiated with 7000 zero samples. -/
theorem C3_example_scenario_witness :
    ∃ d : List ℚ,
      TraceContainer.trace_data (fun _ => "sampled")
        ⟨.tag ⟨"t", "rty", [5], [2],
          [⟨"V", "relacs.data.sampled", .sampled (1/1000) 0 (List.replicate 7000 0)⟩], []⟩,
          1.1, none, 5, 2⟩ (.index 0) .zero
        = .ok (d, some ((List.range 2000).map fun i : ℕ => (i : ℚ) / 1000)) ∧
      TraceContainer.trace_data (fun _ => "sampled")
        ⟨.tag ⟨"t", "rty", [5], [2],
          [⟨"V", "relacs.data.sampled", .sampled (1/1000) 0 (List.replicate 7000 0)⟩], []⟩,
          1.1, none, 5, 2⟩ (.index 0) .repro_start
        = .ok (d, some ((List.range 2000).map fun i : ℕ => 5 + (i : ℚ) / 1000)) ∧
      d.length = 2000 ∧ d = ((List.replicate 7000 (0:ℚ)).drop 5000).take 2000 :=
  C3_example_scenario (fun _ => "sampled") "V" "relacs.data.sampled"
    (List.replicate 7000 0) (by rw [List.length_replicate]) (by decide)

end Rlxnix
